import Mathlib

/-!
Verification of the EDGAR filing crawler and sanitize pipeline
(`scrape_reports.py`).

The development shallowly embeds the Python source:

* Python `str.split(sep)` and `str.replace(a, b)` are embedded on
  `List Char` (`pySplit`, `pyReplaceL`), with a fuel argument equal to the
  input length so that the definitions are structural and evaluate inside
  the kernel.  `s.split(sep)[1]` raising `IndexError` is modelled by
  `Option`.
* The BeautifulSoup document tree is embedded as a first-child /
  next-sibling forest (`HtmlForest`).  `RemoveNumericalTables` iterates
  `soup.find_all('table')` in pre-order and calls `extract()` on every
  table whose digit percentage exceeds 0.15.  Since `find_all` visits an
  ancestor before its descendants and `extract` never changes the text of
  a subtree, each density test in the source sees the original text of
  that table, and extracting a table also removes every table nested in
  it; the recursive `RemoveNumericalTables` below computes exactly that.
  Python's float literal `0.15` differs from 3/20 by less than 6e-18, so
  the comparison `digits/length > 0.15` agrees with the exact rational
  comparison used here for every text whose length is below 10^15;
  `char.isdigit()` is modelled on the ASCII decimal digits.
* The crawl functions (`Scrape10K`, `Scrape10Q`, `ScrapeS1`) perform
  network and filesystem effects; they are embedded as pure functions
  from an environment (`ScrapeEnv`: whether `os.mkdir` fails because the
  company directory exists, and the response each URL produces) to a
  trace of effect events (`Ev`) plus an outcome, the final working
  directory (a list of path components; `os.chdir(d)` appends,
  `os.chdir('..')` drops the last component) and the final existence of
  the company directory.  HTML/pandas parsing of a response body is
  abstracted by structured fields of `Response` (the rows of the third
  table of a browse page, the rows of the first table of a documents
  page); a pandas `NaN` in the `Document` column is `Option.none`.
  An uncaught Python exception (the `IndexError` from
  `split('Acc-no: ')[1]`) is the outcome `Outcome.exc`.
* `ConvertHTML` is embedded the same way (`ConvertEnv`); reading and
  parsing a raw file is abstracted by `ConvertEnv.parse`, and
  `unicodedata.normalize('NFKD', _)` by the uninterpreted function
  `ConvertEnv.nfkd`.
-/

/-- Python `str.split` worker: scan left to right, cut at each
non-overlapping occurrence of the separator `c0 :: cs`.  The fuel is one
unit per consumed character, so `fuel = length` always suffices; the
fuel-exhausted case is unreachable at that fuel. -/
def pySplitF (c0 : Char) (cs : List Char) : Nat → List Char → List (List Char)
  | _, [] => [[]]
  | 0, a :: rest => [a :: rest]
  | fuel + 1, a :: rest =>
    if (c0 :: cs).isPrefixOf (a :: rest) then
      [] :: pySplitF c0 cs fuel (rest.drop cs.length)
    else
      match pySplitF c0 cs fuel rest with
      | [] => [[a]]
      | t :: ts => (a :: t) :: ts

/-- Python `s.split(sep)` on `List Char`.  Python raises `ValueError` on an
empty separator; no call site uses one, the `[]` case is arbitrary. -/
def pySplit (sep s : List Char) : List (List Char) :=
  match sep with
  | [] => [s]
  | c0 :: cs => pySplitF c0 cs s.length s

/-- Python `s.replace(pat, rep)` on `List Char`: split on `pat` and
interpose `rep`. -/
def pyReplaceL (pat rep s : List Char) : List Char :=
  List.intercalate rep (pySplit pat s)

/-- Python `s.replace(pat, rep)` on `String`. -/
def pyReplaceS (pat rep s : String) : String :=
  (pyReplaceL pat.data rep.data s.data).asString

/-- Bool test whether `pat` occurs as a contiguous substring of `s`
(Python `pat in s`). -/
def containsSub (pat s : List Char) : Bool :=
  (List.range (s.length + 1)).any (fun i => pat.isPrefixOf (s.drop i))

/-- Python `pat in s` on `String`. -/
def strContains (s pat : String) : Bool :=
  containsSub pat.data s.data

/- ### The BeautifulSoup document tree and `RemoveNumericalTables` -/

/-- An HTML forest in first-child / next-sibling form: a node is a text
leaf, a `table` element or any other element, each followed by its right
siblings.  This is the shape of the parsed tree that
`RemoveNumericalTables` receives. -/
inductive HtmlForest where
  | nil : HtmlForest
  | text : List Char → HtmlForest → HtmlForest
  | table : HtmlForest → HtmlForest → HtmlForest
  | elem : HtmlForest → HtmlForest → HtmlForest
deriving DecidableEq, Repr

/-- BeautifulSoup `get_text()`: concatenation of all text leaves in
document order. -/
def getText : HtmlForest → List Char
  | .nil => []
  | .text s r => s ++ getText r
  | .table c r => getText c ++ getText r
  | .elem c r => getText c ++ getText r

/-- The number of decimal-digit characters of a string:
`sum([char.isdigit() for char in tablestring])`. -/
def countDigits (s : List Char) : Nat :=
  (s.filter (fun c => c.isDigit)).length

/-- The removal test of `RemoveNumericalTables`:
`GetDigitPercentage(tablestring) > 0.15`, where `GetDigitPercentage`
returns `numbers/length` for nonempty input and `1` for empty input.
`numbers/length > 0.15` is the exact rational comparison
`3 * length < 20 * numbers`. -/
def densityGT (s : List Char) : Bool :=
  if s.length = 0 then true
  else decide (3 * s.length < 20 * countDigits s)

/-- `RemoveNumericalTables(soup)`: extract every table whose digit
percentage exceeds 0.15.  The source iterates `soup.find_all('table')`
(pre-order) and calls `x.extract()` under the test `densityGT`; since
ancestors are visited first and `extract` leaves subtree text unchanged,
this equals the recursive pruning below, in which a removed table takes
all tables nested in it along. -/
def RemoveNumericalTables : HtmlForest → HtmlForest
  | .nil => .nil
  | .text s r => .text s (RemoveNumericalTables r)
  | .table c r =>
    if densityGT (getText c) then RemoveNumericalTables r
    else .table (RemoveNumericalTables c) (RemoveNumericalTables r)
  | .elem c r => .elem (RemoveNumericalTables c) (RemoveNumericalTables r)

/-- All table nodes of a forest in pre-order (`soup.find_all('table')`),
each represented by its child forest (whose `getText` is the text the
density test sees). -/
def allTables : HtmlForest → List HtmlForest
  | .nil => []
  | .text _ r => allTables r
  | .table c r => c :: (allTables c ++ allTables r)
  | .elem c r => allTables c ++ allTables r

/-- The table nodes that survive `RemoveNumericalTables`, in pre-order,
represented by their original child forests: a table survives exactly
when its own digit density does not exceed the threshold and it is not
nested inside a removed table. -/
def keptTables : HtmlForest → List HtmlForest
  | .nil => []
  | .text _ r => keptTables r
  | .table c r =>
    if densityGT (getText c) then keptTables r
    else c :: (keptTables c ++ keptTables r)
  | .elem c r => keptTables c ++ keptTables r

/-- `RemoveTags(soup)`: `get_text()`, then replace every newline by a
space, then NFKD-normalize.  NFKD (`unicodedata.normalize`) is passed in
as an uninterpreted function. -/
def RemoveTags (nfkd : List Char → List Char) (f : HtmlForest) : List Char :=
  nfkd ((getText f).map (fun c => if c = '\n' then ' ' else c))

/- ### The crawl functions -/

/-- How a crawl call ends: a plain `return`, or an uncaught Python
exception propagating to the caller. -/
inductive Outcome where
  | ret : Outcome
  | exc : Outcome
deriving DecidableEq, Repr

/-- Observable effects of a crawl call.  Directories are lists of path
components; a file is addressed by the directory the process was in when
it opened the relative path, plus the relative name. -/
inductive Ev where
  | fetch (url : String)
  | logWrite (dir : List String) (file : String) (text : String)
  | rmdirEv (dir : List String) (name : String)
  | readFile (dir : List String) (name : String)
  | append (dir : List String) (name : String) (content : String)
  | writeFile (dir : List String) (name : String) (content : String)
deriving DecidableEq, Repr

/-- One row of the filings table (`html_tables[2]` of the browse page,
parsed by pandas): the `Filings`, `Description` and `Filing Date`
columns (each already passed through `str`). -/
structure FilingRow where
  filings : String
  description : String
  filingDate : String
deriving DecidableEq, Repr

/-- One row of the documents table (`docs_html_tables[0]` of a filing
page): the `Type` and `Document` columns; a pandas `NaN` document cell
(whose `str` is the sentinel `nan` tested by the source) is `none`. -/
structure DocRow where
  type : String
  document : Option String
deriving DecidableEq, Repr

/-- What `requests.get` returns for one URL, with the parses the source
performs on the body precomputed: the HTTP status, the number of tables
BeautifulSoup finds, the rows of the third table read as a filings
table, the rows of the first table read as a documents table, and the
raw body text. -/
structure Response where
  status : Nat
  numTables : Nat
  filingRows : List FilingRow
  docRows : List DocRow
  content : String

/-- Environment of one crawl call: whether `os.mkdir(directory)` raises
`OSError` (the directory already exists), and the response of every
URL. -/
structure ScrapeEnv where
  dirExists : Bool
  net : String → Response

/-- Result of a crawl call: the event trace, the outcome, the final
working directory, and whether the company directory exists
afterwards. -/
structure CrawlResult where
  events : List Ev
  outcome : Outcome
  cwd : List String
  dirExistsAfter : Bool
deriving Repr

/-- The log text written after a failed request. -/
def failText (status : Nat) (url : String) : String :=
  ("Request failed with error code ") ++ toString status ++
    ("\nFailed URL: ") ++ url ++ ("\n")

/-- The log text written for an unavailable document. -/
def unavailText (cik accNo : String) : String :=
  ("File with CIK: ") ++ cik ++ (" and Acc_No: ") ++ accNo ++
    (" is unavailable") ++ ("\n")

/-- The non-breaking-space character that the source replaces before
splitting on the accession-number marker. -/
def nbsp : Char := '\xA0'

/-- `x.replace('\xa0', ' ')`. -/
def normalizeNbsp (s : List Char) : List Char :=
  pyReplaceL [nbsp] [' '] s

/-- The literal marker `Acc-no: ` (trailing space included) that the
source splits each description on. -/
def accMarker : List Char := ("Acc-no: ").data

/-- `x.replace('\xa0',' ').split('Acc-no: ')[1].split(' ')[0]` on one
description; `none` is the `IndexError` raised when the marker is
absent. -/
def extractAccNoL (s : List Char) : Option (List Char) :=
  match (pySplit accMarker (normalizeNbsp s))[1]? with
  | none => none
  | some seg => some ((pySplit [' '] seg).headI)

/-- Accession-number extraction on `String`. -/
def extractAccNo (s : String) : Option String :=
  (extractAccNoL s.data).map List.asString

/-- The whole list comprehension building the `Acc_No` column: it
evaluates the extraction for every retained row before the download loop
starts, and one failing row raises, discarding the entire list. -/
def extractAll : List String → Option (List String)
  | [] => some []
  | d :: ds =>
    match extractAccNo d with
    | none => none
    | some a =>
      match extractAll ds with
      | none => none
      | some rest => some (a :: rest)

/-- `acc_no.replace('-', '')` used to build the document URL. -/
def stripDashes (s : String) : String :=
  (s.data.filter (fun c => !(c == '-'))).asString

/-- Row filter of `Scrape10K`: `Filings == '10-K' or Filings == '10-K405'`
(and the same test on the `Type` column of the documents table). -/
def pred10K (s : String) : Bool :=
  s == ("10-K") || s == ("10-K405")

/-- Row filter of `Scrape10Q`. -/
def pred10Q (s : String) : Bool :=
  s == ("10-Q")

/-- Row filter of `ScrapeS1`. -/
def predS1 (s : String) : Bool :=
  s == ("S-1")

/-- Body of the per-filing loop shared by the three crawl functions
(the loops differ only in the `Type` filter and in the saved filename
suffix, which is `_s1` in `ScrapeS1` and empty otherwise).  The current
working directory is threaded through because the source temporarily
changes to the parent directory around each in-loop log write
(`os.chdir('..')` … `os.chdir(directory)`). -/
def scrapeLoop (typePred : String → Bool) (sfx : String)
    (filingUrlBase : String → String → String)
    (docUrlBase : String → String → String → String)
    (env : ScrapeEnv) (cik directory logFileName : String)
    (cwd : List String) : List (FilingRow × String) → List Ev × List String
  | [] => ([], cwd)
  | (row, accNo) :: rest =>
    let furl := filingUrlBase cik accNo
    let dp := env.net furl
    if dp.status ≠ 200 then
      let logDir := cwd.dropLast
      let r := scrapeLoop typePred sfx filingUrlBase docUrlBase env cik directory
        logFileName (logDir ++ [directory]) rest
      (Ev.fetch furl :: Ev.logWrite logDir logFileName (failText dp.status furl) :: r.1,
        r.2)
    else if dp.numTables = 0 then
      let r := scrapeLoop typePred sfx filingUrlBase docUrlBase env cik directory
        logFileName cwd rest
      (Ev.fetch furl :: r.1, r.2)
    else
      match (dp.docRows.filter (fun d => typePred d.type)).head? with
      | none =>
        let r := scrapeLoop typePred sfx filingUrlBase docUrlBase env cik directory
          logFileName cwd rest
        (Ev.fetch furl :: r.1, r.2)
      | some d0 =>
        match d0.document with
        | none =>
          let logDir := cwd.dropLast
          let r := scrapeLoop typePred sfx filingUrlBase docUrlBase env cik directory
            logFileName (logDir ++ [directory]) rest
          (Ev.fetch furl :: Ev.logWrite logDir logFileName (unavailText cik accNo) :: r.1,
            r.2)
        | some docname =>
          let durl := docUrlBase cik (stripDashes accNo) docname
          let fr := env.net durl
          if fr.status ≠ 200 then
            let logDir := cwd.dropLast
            let r := scrapeLoop typePred sfx filingUrlBase docUrlBase env cik directory
              logFileName (logDir ++ [directory]) rest
            (Ev.fetch furl :: Ev.fetch durl ::
              Ev.logWrite logDir logFileName (failText fr.status durl) :: r.1, r.2)
          else
            let ext := if strContains docname (".txt") then (".txt") else (".html")
            let filename := cik ++ ("_") ++ row.filingDate ++ sfx ++ ext
            let r := scrapeLoop typePred sfx filingUrlBase docUrlBase env cik directory
              logFileName cwd rest
            (Ev.fetch furl :: Ev.fetch durl :: Ev.append cwd filename fr.content :: r.1,
              r.2)

/-- Common body of `Scrape10K`, `Scrape10Q` and `ScrapeS1`, which are
identical up to the row filters and the filename suffix: create the
company directory (abort if it exists), enter it, fetch the browse page,
bail out on a non-200 status (removing the directory and logging) or on
fewer than three tables or on no retained filings, build the accession
numbers (an absent marker raises), then run the per-filing loop and
return to the parent directory. -/
def scrapeCore (filingPred typePred : String → Bool) (sfx : String)
    (browseUrlBase : String → String)
    (filingUrlBase : String → String → String)
    (docUrlBase : String → String → String → String)
    (env : ScrapeEnv) (cik ticker logFileName : String)
    (cwd : List String) : CrawlResult :=
  let directory := cik ++ ("_") ++ ticker
  if env.dirExists then
    { events := [], outcome := Outcome.ret, cwd := cwd, dirExistsAfter := true }
  else
    let cwd1 := cwd ++ [directory]
    let burl := browseUrlBase cik
    let res := env.net burl
    if res.status ≠ 200 then
      let cwd2 := cwd1.dropLast
      { events := [Ev.fetch burl, Ev.rmdirEv cwd2 directory,
          Ev.logWrite cwd2 logFileName (failText res.status burl)],
        outcome := Outcome.ret, cwd := cwd2, dirExistsAfter := false }
    else if res.numTables < 3 then
      { events := [Ev.fetch burl], outcome := Outcome.ret, cwd := cwd1.dropLast,
        dirExistsAfter := true }
    else
      let ft := res.filingRows.filter (fun r => filingPred r.filings)
      if ft.isEmpty then
        { events := [Ev.fetch burl], outcome := Outcome.ret, cwd := cwd1.dropLast,
          dirExistsAfter := true }
      else
        match extractAll (ft.map (fun r => r.description)) with
        | none =>
          { events := [Ev.fetch burl], outcome := Outcome.exc, cwd := cwd1,
            dirExistsAfter := true }
        | some accs =>
          let r := scrapeLoop typePred sfx filingUrlBase docUrlBase env cik directory
            logFileName cwd1 (ft.zip accs)
          { events := Ev.fetch burl :: r.1, outcome := Outcome.ret,
            cwd := r.2.dropLast, dirExistsAfter := true }

/-- `Scrape10K(browse_url_base, filing_url_base, doc_url_base, cik,
ticker, log_file_name)`. -/
def Scrape10K : (String → String) → (String → String → String) →
    (String → String → String → String) → ScrapeEnv → String → String →
    String → List String → CrawlResult :=
  fun bU fU dU => scrapeCore pred10K pred10K ("") bU fU dU

/-- `Scrape10Q`. -/
def Scrape10Q : (String → String) → (String → String → String) →
    (String → String → String → String) → ScrapeEnv → String → String →
    String → List String → CrawlResult :=
  fun bU fU dU => scrapeCore pred10Q pred10Q ("") bU fU dU

/-- `ScrapeS1`: same control flow, but the saved filename carries an
extra `_s1` before the extension. -/
def ScrapeS1 : (String → String) → (String → String → String) →
    (String → String → String → String) → ScrapeEnv → String → String →
    String → List String → CrawlResult :=
  fun bU fU dU => scrapeCore predS1 predS1 ("_s1") bU fU dU

/-- Whether an event is a network fetch. -/
def isFetch : Ev → Bool
  | Ev.fetch _ => true
  | _ => false

/-- Number of network fetches in a trace. -/
def countFetch (evs : List Ev) : Nat :=
  (evs.filter isFetch).length

/-- The relative filenames of all documents persisted (opened in append
mode) in a trace. -/
def appendNames (evs : List Ev) : List String :=
  evs.filterMap (fun e =>
    match e with
    | Ev.append _ n _ => some n
    | _ => none)

/- ### The sanitize pipeline (`ConvertHTML`) -/

/-- One entry of `os.listdir()` in the company directory. -/
structure DirEntry where
  name : String
  isDir : Bool
deriving DecidableEq, Repr

/-- Environment of one `ConvertHTML` call: whether `os.chdir(cik)`
succeeds, the directory listing, the initial listing of the `rawtext`
subdirectory, the parsed tree each raw file holds
(`bs.BeautifulSoup(file.read(), 'lxml')`), and NFKD normalization as an
uninterpreted function. -/
structure ConvertEnv where
  dirFound : Bool
  entries : List DirEntry
  rawtextFiles : List String
  parse : String → HtmlForest
  nfkd : List Char → List Char

/-- Result of a `ConvertHTML` call.  The function catches its only
anticipated exception (`FileNotFoundError`), so there is no outcome
field; `parsed` is the source's flag telling whether any file was newly
cleaned. -/
structure ConvertResult where
  events : List Ev
  parsed : Bool
  cwd : List String
deriving Repr

/-- `[fname for fname in os.listdir() if not (fname.startswith('.') |
os.path.isdir(fname))]`; `startswith('.')` is a test on the first
character. -/
def fileListOf (env : ConvertEnv) : List String :=
  (env.entries.filter (fun e => !((e.name.data.head? == some '.') || e.isDir))).map
    (fun e => e.name)

/-- The per-file loop of `ConvertHTML`: swap the `.html` extension for
`.txt`, skip the file if that name is already listed in `rawtext`
(the listing is re-read each iteration, so freshly written names count),
otherwise read and parse the file, suppress numerical tables, flatten,
and write the cleaned text to `rawtext/` (mode `w`), setting the
`parsed` flag. -/
def convertLoop (env : ConvertEnv) (cwd1 : List String) (rawtext : List String)
    (parsed : Bool) : List String → List Ev × Bool × List String
  | [] => ([], parsed, rawtext)
  | filename :: rest =>
    let newName := pyReplaceS (".html") (".txt") filename
    if rawtext.contains newName then
      convertLoop env cwd1 rawtext parsed rest
    else
      let soup := env.parse filename
      let cleaned := RemoveTags env.nfkd (RemoveNumericalTables soup)
      let r := convertLoop env cwd1 (rawtext ++ [newName]) true rest
      (Ev.readFile cwd1 filename ::
        Ev.writeFile cwd1 (("rawtext/") ++ newName) cleaned.asString :: r.1,
        r.2.1, r.2.2)

/-- `ConvertHTML(cik)`: enter the company directory (return if it does
not exist), ensure `rawtext/` exists, clean every listed raw file whose
cleaned counterpart is missing, and return to the parent directory. -/
def ConvertHTML (env : ConvertEnv) (cik : String) (cwd : List String) : ConvertResult :=
  if env.dirFound then
    let cwd1 := cwd ++ [cik]
    let r := convertLoop env cwd1 env.rawtextFiles false (fileListOf env)
    { events := r.1, parsed := r.2.1, cwd := cwd1.dropLast }
  else
    { events := [], parsed := false, cwd := cwd }

/- ### Concrete environments used by witnesses and counterexamples -/

/-- Browse-page URL template instance used in concrete runs. -/
def bU0 : String → String := fun c => ("B:") ++ c

/-- Filing-page URL template instance used in concrete runs. -/
def fU0 : String → String → String := fun c a => ("F:") ++ c ++ (":") ++ a

/-- Document URL template instance used in concrete runs. -/
def dU0 : String → String → String → String :=
  fun c a d => ("D:") ++ c ++ (":") ++ a ++ (":") ++ d

/-- A response for URLs no concrete environment defines. -/
def resp404 : Response :=
  { status := 404, numTables := 0, filingRows := [], docRows := [], content := ("") }

/-- Environment whose company directory already exists. -/
def envDirExists : ScrapeEnv :=
  { dirExists := true, net := fun _ => resp404 }

/-- Environment whose browse request fails with status 503. -/
def envBrowseFail : ScrapeEnv :=
  { dirExists := false,
    net := fun _ =>
      { status := 503, numTables := 0, filingRows := [], docRows := [],
        content := ("") } }

/-- Environment whose browse page has only two tables. -/
def envTwoTables : ScrapeEnv :=
  { dirExists := false,
    net := fun _ =>
      { status := 200, numTables := 2, filingRows := [], docRows := [],
        content := ("") } }

/-- Environment for company 7 whose filings table has a well-formed
first row, a second row with no accession-number marker, and a
well-formed third row. -/
def envBadRow : ScrapeEnv :=
  { dirExists := false,
    net := fun u =>
      if u = ("B:7") then
        { status := 200, numTables := 3,
          filingRows := [
            { filings := ("10-K"), description := ("Acc-no: 0001-01-000001 x"),
              filingDate := ("2001-01-01") },
            { filings := ("10-K"), description := ("no marker here"),
              filingDate := ("2002-01-01") },
            { filings := ("10-K405"), description := ("Acc-no: 0003-03-000003 x"),
              filingDate := ("2003-01-01") }],
          docRows := [], content := ("") }
      else
        { status := 200, numTables := 1, filingRows := [],
          docRows := [{ type := ("10-K"), document := some ("d.txt") }],
          content := ("X") } }

/-- Environment for company 7 with one S-1 filing resolving to the
document `doc.htm`, all requests succeeding. -/
def envS1Doc : ScrapeEnv :=
  { dirExists := false,
    net := fun u =>
      if u = ("B:7") then
        { status := 200, numTables := 3,
          filingRows := [
            { filings := ("S-1"), description := ("Acc-no: 0001-20-000001 x"),
              filingDate := ("2020-01-01") }],
          docRows := [], content := ("") }
      else if u = ("F:7:0001-20-000001") then
        { status := 200, numTables := 1, filingRows := [],
          docRows := [{ type := ("S-1"), document := some ("doc.htm") }],
          content := ("") }
      else if u = ("D:7:000120000001:doc.htm") then
        { status := 200, numTables := 0, filingRows := [], docRows := [],
          content := ("BODY") }
      else resp404 }

/-- A fully-cleaned company directory: both raw files already have their
cleaned counterparts listed in `rawtext`. -/
def envCleaned : ConvertEnv :=
  { dirFound := true,
    entries := [
      { name := ("7_2020-01-01.html"), isDir := false },
      { name := ("7_2021-01-01.txt"), isDir := false },
      { name := ("rawtext"), isDir := true },
      { name := (".hidden"), isDir := false }],
    rawtextFiles := [("7_2020-01-01.txt"), ("7_2021-01-01.txt")],
    parse := fun _ => HtmlForest.nil,
    nfkd := fun s => s }

/- ### Lemmas -/

theorem pySplitF_ne_nil (c0 : Char) (cs : List Char) :
    ∀ fuel l, pySplitF c0 cs fuel l ≠ [] := by
  intro fuel
  induction fuel with
  | zero => intro l; cases l <;> simp [pySplitF]
  | succ n ih =>
    intro l
    cases l with
    | nil => simp [pySplitF]
    | cons a rest =>
      simp only [pySplitF]
      split
      · simp
      · split
        · simp
        · simp

theorem pySplitF_fuel (c0 : Char) (cs : List Char) :
    ∀ fuel fuel' l, l.length ≤ fuel → l.length ≤ fuel' →
      pySplitF c0 cs fuel l = pySplitF c0 cs fuel' l := by
  intro fuel
  induction fuel with
  | zero =>
    intro fuel' l h h'
    cases l with
    | nil => cases fuel' <;> simp [pySplitF]
    | cons a rest => simp at h
  | succ n ih =>
    intro fuel' l h h'
    cases l with
    | nil => cases fuel' <;> simp [pySplitF]
    | cons a rest =>
      cases fuel' with
      | zero => simp at h'
      | succ m =>
        simp only [pySplitF]
        by_cases hc : ((c0 :: cs).isPrefixOf (a :: rest) = true)
        · rw [if_pos hc, if_pos hc]
          have hd : (rest.drop cs.length).length ≤ n := by
            simp only [List.length_drop]
            simp only [List.length_cons] at h
            omega
          have hd' : (rest.drop cs.length).length ≤ m := by
            simp only [List.length_drop]
            simp only [List.length_cons] at h'
            omega
          rw [ih m (rest.drop cs.length) hd hd']
        · rw [if_neg hc, if_neg hc]
          have hr : rest.length ≤ n := by
            simp only [List.length_cons] at h; omega
          have hr' : rest.length ≤ m := by
            simp only [List.length_cons] at h'; omega
          rw [ih m rest hr hr']

theorem pySplitF_no_occ (c0 : Char) (cs : List Char) :
    ∀ fuel l, (∀ i < l.length, ¬ ((c0 :: cs).isPrefixOf (l.drop i) = true)) →
      pySplitF c0 cs fuel l = [l] := by
  intro fuel
  induction fuel with
  | zero => intro l _; cases l <;> simp [pySplitF]
  | succ n ih =>
    intro l h
    cases l with
    | nil => simp [pySplitF]
    | cons a rest =>
      have h0 : ¬ ((c0 :: cs).isPrefixOf (a :: rest) = true) := by
        have := h 0 (by simp)
        simpa using this
      have hrest : ∀ i < rest.length, ¬ ((c0 :: cs).isPrefixOf (rest.drop i) = true) := by
        intro i hi hp
        exact h (i + 1) (by simp; omega) (by simpa [List.drop_succ_cons] using hp)
      simp only [pySplitF, if_neg h0, ih rest hrest]

theorem isPrefixOf_self_append (p q : List Char) : p.isPrefixOf (p ++ q) = true := by
  induction p with
  | nil => simp [List.isPrefixOf]
  | cons a t ih => simp [List.isPrefixOf, ih]

theorem cons_isPrefixOf_head {c0 : Char} {cs l : List Char}
    (h : (c0 :: cs).isPrefixOf l = true) : l.head? = some c0 := by
  cases l with
  | nil => simp [List.isPrefixOf] at h
  | cons x t =>
    simp only [List.isPrefixOf, Bool.and_eq_true, beq_iff_eq] at h
    simp [h.1]

theorem no_occ_of_head_ne (c0 : Char) (cs : List Char) (a l : List Char)
    (ha : ∀ x ∈ a, x ≠ c0) :
    ∀ i < a.length, ¬ ((c0 :: cs).isPrefixOf ((a ++ l).drop i) = true) := by
  intro i hi hp
  have hd : ((a ++ l).drop i).head? = some c0 := cons_isPrefixOf_head hp
  rw [List.drop_append_of_le_length (le_of_lt hi)] at hd
  have hne : a.drop i ≠ [] := by
    intro he
    have := congrArg List.length he
    simp [List.length_drop] at this
    omega
  obtain ⟨y, t, hyt⟩ := List.exists_cons_of_ne_nil hne
  rw [hyt] at hd
  simp only [List.cons_append, List.head?_cons, Option.some.injEq] at hd
  have hy : y ∈ a := by
    have : y ∈ a.drop i := by rw [hyt]; exact List.mem_cons_self y t
    exact List.drop_subset i a this
  exact ha y hy hd

theorem pySplitF_append_sep (c0 : Char) (cs : List Char) :
    ∀ (a b : List Char) (fuel : Nat), (a ++ (c0 :: cs) ++ b).length ≤ fuel →
      (∀ i < a.length, ¬ ((c0 :: cs).isPrefixOf ((a ++ (c0 :: cs) ++ b).drop i) = true)) →
      pySplitF c0 cs fuel (a ++ (c0 :: cs) ++ b) = a :: pySplitF c0 cs b.length b := by
  intro a
  induction a with
  | nil =>
    intro b fuel hlen _
    simp only [List.nil_append] at hlen ⊢
    cases fuel with
    | zero => simp [List.length_cons] at hlen
    | succ m =>
      have hpre : (c0 :: cs).isPrefixOf (c0 :: (cs ++ b)) = true := by
        have := isPrefixOf_self_append (c0 :: cs) b
        rw [List.cons_append] at this
        exact this
      simp only [List.cons_append, pySplitF, List.append_eq]
      rw [if_pos hpre, List.drop_left cs b,
        pySplitF_fuel c0 cs m b.length b (by simp at hlen; omega) (le_refl _)]
  | cons x a' ih =>
    intro b fuel hlen hocc
    cases fuel with
    | zero => simp [List.length_cons] at hlen
    | succ m =>
      have h0 : ¬ ((c0 :: cs).isPrefixOf ((x :: a') ++ (c0 :: cs) ++ b) = true) := by
        have := hocc 0 (by simp)
        simpa using this
      have hocc' : ∀ i < a'.length,
          ¬ ((c0 :: cs).isPrefixOf ((a' ++ (c0 :: cs) ++ b).drop i) = true) := by
        intro i hi hp
        refine hocc (i + 1) (by simp; omega) ?_
        simpa [List.cons_append, List.drop_succ_cons] using hp
      have hlen' : (a' ++ (c0 :: cs) ++ b).length ≤ m := by
        simp only [List.cons_append, List.length_cons] at hlen
        simpa using Nat.le_of_succ_le_succ hlen
      simp only [List.cons_append, pySplitF, List.append_eq]
      rw [if_neg (by simpa [List.cons_append] using h0)]
      rw [ih b m hlen' hocc']

theorem pySplitF_prepend (c0 : Char) (cs : List Char) :
    ∀ (a l : List Char) (fuel : Nat), (a ++ l).length ≤ fuel →
      (∀ i < a.length, ¬ ((c0 :: cs).isPrefixOf ((a ++ l).drop i) = true)) →
      ∃ h t, pySplitF c0 cs l.length l = h :: t ∧
        pySplitF c0 cs fuel (a ++ l) = (a ++ h) :: t := by
  intro a
  induction a with
  | nil =>
    intro l fuel hlen _
    simp only [List.nil_append] at hlen ⊢
    have hne := pySplitF_ne_nil c0 cs l.length l
    obtain ⟨h, t, hht⟩ : ∃ h t, pySplitF c0 cs l.length l = h :: t := by
      cases he : pySplitF c0 cs l.length l with
      | nil => exact absurd he hne
      | cons h t => exact ⟨h, t, rfl⟩
    refine ⟨h, t, hht, ?_⟩
    rw [pySplitF_fuel c0 cs fuel l.length l hlen (le_refl _), hht]
  | cons x a' ih =>
    intro l fuel hlen hocc
    cases fuel with
    | zero => simp [List.length_cons] at hlen
    | succ m =>
      have h0 : ¬ ((c0 :: cs).isPrefixOf ((x :: a') ++ l) = true) := by
        have := hocc 0 (by simp)
        simpa using this
      have hocc' : ∀ i < a'.length,
          ¬ ((c0 :: cs).isPrefixOf ((a' ++ l).drop i) = true) := by
        intro i hi hp
        refine hocc (i + 1) (by simp; omega) ?_
        simpa [List.cons_append, List.drop_succ_cons] using hp
      have hlen' : (a' ++ l).length ≤ m := by
        simp only [List.cons_append, List.length_cons] at hlen
        simpa using Nat.le_of_succ_le_succ hlen
      obtain ⟨h, t, hht, hres⟩ := ih l m hlen' hocc'
      refine ⟨h, t, hht, ?_⟩
      simp only [List.cons_append, pySplitF, List.append_eq]
      rw [if_neg (by simpa [List.cons_append] using h0)]
      rw [hres]

theorem pySplit_sep_split (c0 : Char) (cs a b : List Char)
    (hocc : ∀ i < a.length, ¬ ((c0 :: cs).isPrefixOf ((a ++ (c0 :: cs) ++ b).drop i) = true)) :
    pySplit (c0 :: cs) (a ++ (c0 :: cs) ++ b) = a :: pySplit (c0 :: cs) b := by
  simp only [pySplit]
  exact pySplitF_append_sep c0 cs a b _ (le_refl _) hocc

theorem pySplit_no_occ (c0 : Char) (cs l : List Char)
    (hocc : ∀ i < l.length, ¬ ((c0 :: cs).isPrefixOf (l.drop i) = true)) :
    pySplit (c0 :: cs) l = [l] := by
  simp only [pySplit]
  exact pySplitF_no_occ c0 cs l.length l hocc

theorem pySplit_prepend (c0 : Char) (cs a l : List Char)
    (hocc : ∀ i < a.length, ¬ ((c0 :: cs).isPrefixOf ((a ++ l).drop i) = true)) :
    ∃ h t, pySplit (c0 :: cs) l = h :: t ∧
      pySplit (c0 :: cs) (a ++ l) = (a ++ h) :: t := by
  simp only [pySplit]
  exact pySplitF_prepend c0 cs a l _ (le_refl _) hocc

theorem containsSub_append (pat a b : List Char) :
    containsSub pat (a ++ pat ++ b) = true := by
  simp only [containsSub, List.any_eq_true]
  refine ⟨a.length, ?_, ?_⟩
  · simp [List.mem_range, List.length_append]; omega
  · rw [List.append_assoc, List.drop_left a (pat ++ b)]
    exact isPrefixOf_self_append pat b

theorem countDigits_append (a b : List Char) :
    countDigits (a ++ b) = countDigits a + countDigits b := by
  simp [countDigits, List.filter_append]

/-- Pruning only removes text that sat in dense tables: writing `d, l`
for the digit count and length of `getText f` and `d', l'` for those of
the pruned forest, `20 * (d - d') ≥ 3 * (l - l')`, strictly when any
text was removed at all. -/
theorem prune_balance : ∀ f : HtmlForest,
    (20 * countDigits (getText f) + 3 * (getText (RemoveNumericalTables f)).length ≥
      20 * countDigits (getText (RemoveNumericalTables f)) + 3 * (getText f).length) ∧
    ((getText (RemoveNumericalTables f)).length < (getText f).length →
      20 * countDigits (getText f) + 3 * (getText (RemoveNumericalTables f)).length >
        20 * countDigits (getText (RemoveNumericalTables f)) + 3 * (getText f).length) := by
  intro f
  induction f with
  | nil => simp [RemoveNumericalTables, getText]
  | text s r ih =>
    simp only [RemoveNumericalTables, getText, countDigits_append, List.length_append]
    omega
  | table c r ihc ihr =>
    by_cases h : densityGT (getText c) = true
    · have hcc : ((getText c).length = 0 ∧ countDigits (getText c) = 0) ∨
          3 * (getText c).length < 20 * countDigits (getText c) := by
        by_cases hz : (getText c).length = 0
        · left
          refine ⟨hz, ?_⟩
          have he : getText c = [] := List.length_eq_zero.mp hz
          rw [he]; rfl
        · right
          simp only [densityGT, if_neg hz, decide_eq_true_eq] at h
          exact h
      simp only [RemoveNumericalTables, h, if_true, getText, countDigits_append,
        List.length_append]
      have h1 := ihr.1
      constructor
      · rcases hcc with ⟨hz, hc⟩ | hc <;> omega
      · intro hlt
        rcases hcc with ⟨hz, hc⟩ | hc
        · have := ihr.2 (by omega)
          omega
        · omega
    · have h' : densityGT (getText c) = false := by
        simp only [Bool.not_eq_true] at h; exact h
      simp only [RemoveNumericalTables, h', if_false, getText, countDigits_append,
        List.length_append]
      constructor
      · omega
      · intro hlt
        by_cases hcl : (getText (RemoveNumericalTables c)).length < (getText c).length
        · have := ihc.2 hcl
          have := ihr.1
          omega
        · have : (getText (RemoveNumericalTables r)).length < (getText r).length := by
            omega
          have := ihr.2 this
          have := ihc.1
          omega
  | elem c r ihc ihr =>
    simp only [RemoveNumericalTables, getText, countDigits_append, List.length_append]
    constructor
    · omega
    · intro hlt
      by_cases hcl : (getText (RemoveNumericalTables c)).length < (getText c).length
      · have := ihc.2 hcl
        have := ihr.1
        omega
      · have : (getText (RemoveNumericalTables r)).length < (getText r).length := by
          omega
        have := ihr.2 this
        have := ihc.1
        omega

/-- A table kept by the density test stays below the threshold after its
own body is pruned: its remaining text is nonempty and its digit density
still does not exceed 0.15. -/
theorem densityGT_prune (c : HtmlForest) (h : densityGT (getText c) = false) :
    densityGT (getText (RemoveNumericalTables c)) = false := by
  have hb := prune_balance c
  have hl : (getText c).length ≠ 0 ∧
      ¬ (3 * (getText c).length < 20 * countDigits (getText c)) := by
    by_cases hz : (getText c).length = 0
    · simp [densityGT, hz] at h
    · refine ⟨hz, ?_⟩
      simp only [densityGT, if_neg hz, decide_eq_false_iff_not] at h
      exact h
  have hz' : (getText (RemoveNumericalTables c)).length ≠ 0 := by
    intro hz0
    have hlt : (getText (RemoveNumericalTables c)).length < (getText c).length := by
      omega
    have := hb.2 hlt
    omega
  simp only [densityGT, if_neg hz']
  refine decide_eq_false ?_
  have := hb.1
  omega


theorem failText_contains_url (st : Nat) (u : String) :
    strContains (failText st u) u = true := by
  simp only [failText, strContains, String.data_append]
  exact containsSub_append u.data _ _

theorem failText_contains_status (st : Nat) (u : String) :
    strContains (failText st u) (toString st) = true := by
  simp only [failText, strContains, String.data_append]
  rw [List.append_assoc, List.append_assoc]
  exact containsSub_append (toString st).data _ _

theorem scrapeCore_eq_of_dirExists (fp tp : String → Bool) (sfx : String)
    (bU : String → String) (fU : String → String → String)
    (dU : String → String → String → String) (env : ScrapeEnv)
    (cik ticker lfn : String) (cwd : List String)
    (h : env.dirExists = true) :
    scrapeCore fp tp sfx bU fU dU env cik ticker lfn cwd =
      { events := [], outcome := Outcome.ret, cwd := cwd, dirExistsAfter := true } := by
  simp [scrapeCore, h]

theorem scrapeCore_eq_of_browseFail (fp tp : String → Bool) (sfx : String)
    (bU : String → String) (fU : String → String → String)
    (dU : String → String → String → String) (env : ScrapeEnv)
    (cik ticker lfn : String) (cwd : List String)
    (h1 : env.dirExists = false) (h2 : (env.net (bU cik)).status ≠ 200) :
    scrapeCore fp tp sfx bU fU dU env cik ticker lfn cwd =
      { events := [Ev.fetch (bU cik),
          Ev.rmdirEv cwd (cik ++ ("_") ++ ticker),
          Ev.logWrite cwd lfn (failText (env.net (bU cik)).status (bU cik))],
        outcome := Outcome.ret, cwd := cwd, dirExistsAfter := false } := by
  simp [scrapeCore, h1, h2, List.dropLast_concat]

theorem scrapeCore_eq_of_fewTables (fp tp : String → Bool) (sfx : String)
    (bU : String → String) (fU : String → String → String)
    (dU : String → String → String → String) (env : ScrapeEnv)
    (cik ticker lfn : String) (cwd : List String)
    (h1 : env.dirExists = false) (h2 : (env.net (bU cik)).status = 200)
    (h3 : (env.net (bU cik)).numTables < 3) :
    scrapeCore fp tp sfx bU fU dU env cik ticker lfn cwd =
      { events := [Ev.fetch (bU cik)], outcome := Outcome.ret, cwd := cwd,
        dirExistsAfter := true } := by
  simp [scrapeCore, h1, h2, h3, List.dropLast_concat]

/-- Claim C1: for every company whose output directory
(`identifier_ticker`) already exists when the crawler is invoked for it,
`Scrape10K`, `Scrape10Q` and `ScrapeS1` return immediately — an empty
event trace, so in particular zero network fetches, the working
directory untouched and the directory left in place. -/
theorem claimC1 : ∀ (bU : String → String) (fU : String → String → String)
    (dU : String → String → String → String) (env : ScrapeEnv)
    (cik ticker lfn : String) (cwd : List String),
    env.dirExists = true →
    Scrape10K bU fU dU env cik ticker lfn cwd =
      { events := [], outcome := Outcome.ret, cwd := cwd, dirExistsAfter := true } ∧
    Scrape10Q bU fU dU env cik ticker lfn cwd =
      { events := [], outcome := Outcome.ret, cwd := cwd, dirExistsAfter := true } ∧
    ScrapeS1 bU fU dU env cik ticker lfn cwd =
      { events := [], outcome := Outcome.ret, cwd := cwd, dirExistsAfter := true } ∧
    countFetch (Scrape10K bU fU dU env cik ticker lfn cwd).events = 0 ∧
    countFetch (Scrape10Q bU fU dU env cik ticker lfn cwd).events = 0 ∧
    countFetch (ScrapeS1 bU fU dU env cik ticker lfn cwd).events = 0 := by
  intro bU fU dU env cik ticker lfn cwd h
  have h1 := scrapeCore_eq_of_dirExists pred10K pred10K ("") bU fU dU env cik ticker lfn cwd h
  have h2 := scrapeCore_eq_of_dirExists pred10Q pred10Q ("") bU fU dU env cik ticker lfn cwd h
  have h3 := scrapeCore_eq_of_dirExists predS1 predS1 ("_s1") bU fU dU env cik ticker lfn cwd h
  refine ⟨h1, h2, h3, ?_, ?_, ?_⟩ <;>
    simp [Scrape10K, Scrape10Q, ScrapeS1, h1, h2, h3, countFetch]

/-- Claim C1 witness: a concrete run against an existing directory. -/
theorem claimC1_witness :
    envDirExists.dirExists = true ∧
    Scrape10K bU0 fU0 dU0 envDirExists ("1") ("T") ("log") [("root")] =
      { events := [], outcome := Outcome.ret, cwd := [("root")],
        dirExistsAfter := true } ∧
    countFetch (ScrapeS1 bU0 fU0 dU0 envDirExists ("1") ("T") ("log")
      [("root")]).events = 0 :=
  ⟨by decide,
   (claimC1 bU0 fU0 dU0 envDirExists ("1") ("T") ("log") [("root")] (by decide)).1,
   (claimC1 bU0 fU0 dU0 envDirExists ("1") ("T") ("log") [("root")]
     (by decide)).2.2.2.2.2⟩

/-- Claim C2: when the browse-page (index) fetch for a company answers
with a non-200 status, each crawl function performs exactly that one
fetch, removes the company directory it just created, appends a log
line — containing the failing URL and the status code — to the session
log in the parent directory, and returns with the working directory
restored; no filing fetch occurs. -/
theorem claimC2 : ∀ (bU : String → String) (fU : String → String → String)
    (dU : String → String → String → String) (env : ScrapeEnv)
    (cik ticker lfn : String) (cwd : List String),
    env.dirExists = false → (env.net (bU cik)).status ≠ 200 →
    Scrape10K bU fU dU env cik ticker lfn cwd =
      { events := [Ev.fetch (bU cik),
          Ev.rmdirEv cwd (cik ++ ("_") ++ ticker),
          Ev.logWrite cwd lfn (failText (env.net (bU cik)).status (bU cik))],
        outcome := Outcome.ret, cwd := cwd, dirExistsAfter := false } ∧
    Scrape10Q bU fU dU env cik ticker lfn cwd =
      { events := [Ev.fetch (bU cik),
          Ev.rmdirEv cwd (cik ++ ("_") ++ ticker),
          Ev.logWrite cwd lfn (failText (env.net (bU cik)).status (bU cik))],
        outcome := Outcome.ret, cwd := cwd, dirExistsAfter := false } ∧
    ScrapeS1 bU fU dU env cik ticker lfn cwd =
      { events := [Ev.fetch (bU cik),
          Ev.rmdirEv cwd (cik ++ ("_") ++ ticker),
          Ev.logWrite cwd lfn (failText (env.net (bU cik)).status (bU cik))],
        outcome := Outcome.ret, cwd := cwd, dirExistsAfter := false } ∧
    countFetch (Scrape10K bU fU dU env cik ticker lfn cwd).events = 1 ∧
    strContains (failText (env.net (bU cik)).status (bU cik)) (bU cik) = true ∧
    strContains (failText (env.net (bU cik)).status (bU cik))
      (toString (env.net (bU cik)).status) = true := by
  intro bU fU dU env cik ticker lfn cwd h1 h2
  have e1 := scrapeCore_eq_of_browseFail pred10K pred10K ("") bU fU dU env cik ticker
    lfn cwd h1 h2
  have e2 := scrapeCore_eq_of_browseFail pred10Q pred10Q ("") bU fU dU env cik ticker
    lfn cwd h1 h2
  have e3 := scrapeCore_eq_of_browseFail predS1 predS1 ("_s1") bU fU dU env cik ticker
    lfn cwd h1 h2
  refine ⟨e1, e2, e3, ?_, failText_contains_url _ _, failText_contains_status _ _⟩
  simp [Scrape10K, e1, countFetch, isFetch]

/-- Claim C2 witness: a concrete failing browse fetch (status 503). -/
theorem claimC2_witness :
    envBrowseFail.dirExists = false ∧
    (envBrowseFail.net (bU0 ("9"))).status = 503 ∧
    Scrape10K bU0 fU0 dU0 envBrowseFail ("9") ("T") ("log") [("root")] =
      { events := [Ev.fetch ("B:9"),
          Ev.rmdirEv [("root")] ("9_T"),
          Ev.logWrite [("root")] ("log") (failText 503 ("B:9"))],
        outcome := Outcome.ret, cwd := [("root")], dirExistsAfter := false } ∧
    strContains (failText 503 ("B:9")) ("B:9") = true :=
  ⟨by decide, by decide,
   (claimC2 bU0 fU0 dU0 envBrowseFail ("9") ("T") ("log") [("root")] (by decide)
     (by decide)).1,
   (claimC2 bU0 fU0 dU0 envBrowseFail ("9") ("T") ("log") [("root")] (by decide)
     (by decide)).2.2.2.2.1⟩

/-- Claim C6: when the successfully fetched browse page holds fewer than
three tables, each crawl function treats the company as having no
filings: it returns normally (no exception), fetches nothing beyond the
single index request, persists nothing, keeps the directory, and
restores the working directory. -/
theorem claimC6 : ∀ (bU : String → String) (fU : String → String → String)
    (dU : String → String → String → String) (env : ScrapeEnv)
    (cik ticker lfn : String) (cwd : List String),
    env.dirExists = false → (env.net (bU cik)).status = 200 →
    (env.net (bU cik)).numTables < 3 →
    Scrape10K bU fU dU env cik ticker lfn cwd =
      { events := [Ev.fetch (bU cik)], outcome := Outcome.ret, cwd := cwd,
        dirExistsAfter := true } ∧
    Scrape10Q bU fU dU env cik ticker lfn cwd =
      { events := [Ev.fetch (bU cik)], outcome := Outcome.ret, cwd := cwd,
        dirExistsAfter := true } ∧
    ScrapeS1 bU fU dU env cik ticker lfn cwd =
      { events := [Ev.fetch (bU cik)], outcome := Outcome.ret, cwd := cwd,
        dirExistsAfter := true } ∧
    countFetch (Scrape10K bU fU dU env cik ticker lfn cwd).events = 1 ∧
    appendNames (Scrape10K bU fU dU env cik ticker lfn cwd).events = [] := by
  intro bU fU dU env cik ticker lfn cwd h1 h2 h3
  have e1 := scrapeCore_eq_of_fewTables pred10K pred10K ("") bU fU dU env cik ticker
    lfn cwd h1 h2 h3
  have e2 := scrapeCore_eq_of_fewTables pred10Q pred10Q ("") bU fU dU env cik ticker
    lfn cwd h1 h2 h3
  have e3 := scrapeCore_eq_of_fewTables predS1 predS1 ("_s1") bU fU dU env cik ticker
    lfn cwd h1 h2 h3
  refine ⟨e1, e2, e3, ?_, ?_⟩ <;>
    simp [Scrape10K, e1, countFetch, isFetch, appendNames]

/-- Claim C6 witness: a concrete browse page with two tables. -/
theorem claimC6_witness :
    envTwoTables.dirExists = false ∧
    (envTwoTables.net (bU0 ("12345"))).numTables = 2 ∧
    Scrape10K bU0 fU0 dU0 envTwoTables ("12345") ("ABCD") ("log") [("root")] =
      { events := [Ev.fetch ("B:12345")], outcome := Outcome.ret, cwd := [("root")],
        dirExistsAfter := true } :=
  ⟨by decide, by decide,
   (claimC6 bU0 fU0 dU0 envTwoTables ("12345") ("ABCD") ("log") [("root")]
     (by decide) (by decide) (by decide)).1⟩

/-- Claim C3 counterexample: in the document
`<table>  <table>hello</table>  999  </table>`, the inner table has
digit density 0 (below the threshold) and nonempty text, yet it does not
survive `RemoveNumericalTables`, because its enclosing table (text
`hello999`, density 3/8 > 0.15) is extracted with everything nested in
it — contradicting the claim that every table at or below the threshold
with nonempty text is preserved. -/
theorem claimC3_counterexample :
    densityGT (getText (HtmlForest.text ("hello").data HtmlForest.nil)) = false ∧
    getText (HtmlForest.text ("hello").data HtmlForest.nil) ≠ [] ∧
    (HtmlForest.text ("hello").data HtmlForest.nil) ∈
      allTables (HtmlForest.table
        (HtmlForest.table (HtmlForest.text ("hello").data HtmlForest.nil)
          (HtmlForest.text ("999").data HtmlForest.nil))
        HtmlForest.nil) ∧
    allTables (RemoveNumericalTables (HtmlForest.table
        (HtmlForest.table (HtmlForest.text ("hello").data HtmlForest.nil)
          (HtmlForest.text ("999").data HtmlForest.nil))
        HtmlForest.nil)) = [] := by
  decide

/-- Claim C3 (amended): `RemoveNumericalTables` removes a table if and
only if its digit density (1.0 for zero-length text) exceeds 0.15 or it
is nested inside a removed table; the surviving table nodes are exactly
the `keptTables` — those whose own density is at or below the threshold
and all of whose enclosing tables are also at or below it — each with
the filter applied recursively to its contents. -/
theorem claimC3_amended : ∀ f : HtmlForest,
    allTables (RemoveNumericalTables f) =
      (keptTables f).map RemoveNumericalTables := by
  intro f
  induction f with
  | nil => rfl
  | text s r ih => simpa [RemoveNumericalTables, allTables, keptTables] using ih
  | table c r ihc ihr =>
    by_cases h : densityGT (getText c) = true
    · simp [RemoveNumericalTables, allTables, keptTables, h, ihr]
    · have h' : densityGT (getText c) = false := by
        simp only [Bool.not_eq_true] at h; exact h
      simp [RemoveNumericalTables, allTables, keptTables, h', ihc, ihr]
  | elem c r ihc ihr =>
    simp [RemoveNumericalTables, allTables, keptTables, ihc, ihr]

/-- Claim C8: table suppression is idempotent — applying
`RemoveNumericalTables` to an already-suppressed tree removes nothing
further: every kept table keeps nonempty text whose digit density is
still at or below the threshold. -/
theorem claimC8 : ∀ f : HtmlForest,
    RemoveNumericalTables (RemoveNumericalTables f) = RemoveNumericalTables f := by
  intro f
  induction f with
  | nil => rfl
  | text s r ih => simp [RemoveNumericalTables, ih]
  | table c r ihc ihr =>
    by_cases h : densityGT (getText c) = true
    · simp [RemoveNumericalTables, h, ihr]
    · have h' : densityGT (getText c) = false := by
        simp only [Bool.not_eq_true] at h; exact h
      have h2 := densityGT_prune c h'
      simp [RemoveNumericalTables, h', h2, ihc, ihr]
  | elem c r ihc ihr => simp [RemoveNumericalTables, ihc, ihr]

theorem extractAll_eq_none (l : List String)
    (h : ∃ s ∈ l, extractAccNo s = none) : extractAll l = none := by
  induction l with
  | nil => simp at h
  | cons d ds ih =>
    obtain ⟨s, hs, hnone⟩ := h
    rcases List.mem_cons.mp hs with he | hm
    · subst he
      simp [extractAll, hnone]
    · simp only [extractAll]
      cases hd : extractAccNo d with
      | none => rfl
      | some a =>
        rw [ih ⟨s, hm, hnone⟩]

theorem scrapeCore_eq_of_badRow (fp tp : String → Bool) (sfx : String)
    (bU : String → String) (fU : String → String → String)
    (dU : String → String → String → String) (env : ScrapeEnv)
    (cik ticker lfn : String) (cwd : List String)
    (h1 : env.dirExists = false) (h2 : (env.net (bU cik)).status = 200)
    (h3 : ¬ (env.net (bU cik)).numTables < 3)
    (h4 : extractAll (((env.net (bU cik)).filingRows.filter
      (fun r => fp r.filings)).map (fun r => r.description)) = none) :
    scrapeCore fp tp sfx bU fU dU env cik ticker lfn cwd =
      { events := [Ev.fetch (bU cik)], outcome := Outcome.exc,
        cwd := cwd ++ [cik ++ ("_") ++ ticker], dirExistsAfter := true } := by
  have hne : ((env.net (bU cik)).filingRows.filter (fun r => fp r.filings)) ≠ [] := by
    intro he
    rw [he] at h4
    simp [extractAll] at h4
  simp only [scrapeCore, h1, Bool.false_eq_true, if_false, h2, ne_eq,
    not_true_eq_false, if_false, h3, List.isEmpty_eq_false.mpr hne,
    Bool.false_eq_true, if_false, h4]

/-- Claim C4 counterexample: company 7 has three retained 10-K rows, the
second of which lacks the `Acc-no:` marker.  The claim predicts that only
that row fails and the remaining rows are still processed; the code
instead raises an uncaught `IndexError` while building the whole
accession-number column, so the crawl of the company aborts after the
single index fetch — the outcome is an exception, not a normal return,
and the two well-formed rows are never fetched. -/
theorem claimC4_counterexample :
    (∃ r ∈ (envBadRow.net (bU0 ("7"))).filingRows,
      extractAccNo r.description = none) ∧
    (Scrape10K bU0 fU0 dU0 envBadRow ("7") ("T") ("log") [("root")]).outcome =
      Outcome.exc ∧
    countFetch (Scrape10K bU0 fU0 dU0 envBadRow ("7") ("T") ("log")
      [("root")]).events = 1 := by
  refine ⟨⟨FilingRow.mk ("10-K") ("no marker here") ("2002-01-01"),
    by decide, by decide⟩, by decide, by decide⟩

/-- Claim C4 (amended): a retained filings-table row whose description
lacks the `Acc-no: ` marker does not merely fail for that row — the
`IndexError` raised inside the list comprehension aborts the crawl of
the whole company: `Scrape10K` (resp. `ScrapeS1`) ends in an uncaught
exception right after the index fetch, no filing page is fetched, and no
row (well-formed or not) is processed or skipped individually. -/
theorem claimC4_amended :
    (∀ (bU : String → String) (fU : String → String → String)
      (dU : String → String → String → String) (env : ScrapeEnv)
      (cik ticker lfn : String) (cwd : List String),
      env.dirExists = false → (env.net (bU cik)).status = 200 →
      ¬ (env.net (bU cik)).numTables < 3 →
      (∃ r ∈ (env.net (bU cik)).filingRows.filter (fun r => pred10K r.filings),
        extractAccNo r.description = none) →
      Scrape10K bU fU dU env cik ticker lfn cwd =
        { events := [Ev.fetch (bU cik)], outcome := Outcome.exc,
          cwd := cwd ++ [cik ++ ("_") ++ ticker], dirExistsAfter := true }) ∧
    (∀ (bU : String → String) (fU : String → String → String)
      (dU : String → String → String → String) (env : ScrapeEnv)
      (cik ticker lfn : String) (cwd : List String),
      env.dirExists = false → (env.net (bU cik)).status = 200 →
      ¬ (env.net (bU cik)).numTables < 3 →
      (∃ r ∈ (env.net (bU cik)).filingRows.filter (fun r => predS1 r.filings),
        extractAccNo r.description = none) →
      ScrapeS1 bU fU dU env cik ticker lfn cwd =
        { events := [Ev.fetch (bU cik)], outcome := Outcome.exc,
          cwd := cwd ++ [cik ++ ("_") ++ ticker], dirExistsAfter := true }) := by
  constructor
  · intro bU fU dU env cik ticker lfn cwd h1 h2 h3 h4
    obtain ⟨r, hr, hnone⟩ := h4
    refine scrapeCore_eq_of_badRow pred10K pred10K ("") bU fU dU env cik ticker lfn
      cwd h1 h2 h3 (extractAll_eq_none _ ?_)
    exact ⟨r.description, List.mem_map.mpr ⟨r, hr, rfl⟩, hnone⟩
  · intro bU fU dU env cik ticker lfn cwd h1 h2 h3 h4
    obtain ⟨r, hr, hnone⟩ := h4
    refine scrapeCore_eq_of_badRow predS1 predS1 ("_s1") bU fU dU env cik ticker lfn
      cwd h1 h2 h3 (extractAll_eq_none _ ?_)
    exact ⟨r.description, List.mem_map.mpr ⟨r, hr, rfl⟩, hnone⟩

/-- Claim C4 witness: the amended theorem applied to the concrete badly
formed company. -/
theorem claimC4_witness :
    Scrape10K bU0 fU0 dU0 envBadRow ("7") ("T") ("log") [("root")] =
      { events := [Ev.fetch (bU0 ("7"))], outcome := Outcome.exc,
        cwd := [("root")] ++ [("7") ++ ("_") ++ ("T")], dirExistsAfter := true } :=
  claimC4_amended.1 bU0 fU0 dU0 envBadRow ("7") ("T") ("log") [("root")]
    (by decide) (by decide) (by decide)
    ⟨FilingRow.mk ("10-K") ("no marker here") ("2002-01-01"), by decide, by decide⟩

/-- Claim C5 counterexample: a successful S-1 crawl of company 7 (filing
date 2020-01-01, document `doc.htm`) persists the download under the name
`7_2020-01-01_s1.html` — with an `_s1` inserted before the extension —
and not under the name `7_2020-01-01.html` that the claim requires
uniformly for all three form types. -/
theorem claimC5_counterexample :
    appendNames (ScrapeS1 bU0 fU0 dU0 envS1Doc ("7") ("T") ("log")
        [("root")]).events = [("7_2020-01-01_s1.html")] ∧
    (("7_2020-01-01_s1.html") : String) ≠ ("7_2020-01-01.html") := by
  constructor
  · decide
  · decide

theorem convertLoop_skip (env : ConvertEnv) (cwd1 : List String) :
    ∀ (fl : List String) (rawtext : List String) (parsed : Bool),
      (∀ f ∈ fl, pyReplaceS (".html") (".txt") f ∈ rawtext) →
      convertLoop env cwd1 rawtext parsed fl = ([], parsed, rawtext) := by
  intro fl
  induction fl with
  | nil => intro rawtext parsed _; rfl
  | cons filename rest ih =>
    intro rawtext parsed h
    have hmem : pyReplaceS (".html") (".txt") filename ∈ rawtext :=
      h filename (List.mem_cons_self filename rest)
    have hcontains : rawtext.contains (pyReplaceS (".html") (".txt") filename) = true :=
      List.elem_iff.mpr hmem
    simp only [convertLoop, hcontains, if_true]
    exact ih rawtext parsed (fun f hf => h f (List.mem_cons_of_mem filename hf))

/-- Claim C9: `ConvertHTML` computes each cleaned filename by
substituting `.txt` for `.html` in the raw filename, and skips a raw
file whenever that cleaned name is already listed in the `rawtext`
subdirectory; hence over a fully cleaned company — every listed raw file
has its cleaned counterpart present — it reads, parses and writes
nothing, leaves the `parsed` flag false, and restores the working
directory. -/
theorem claimC9 : ∀ (env : ConvertEnv) (cik : String) (cwd : List String),
    (∀ f ∈ fileListOf env, pyReplaceS (".html") (".txt") f ∈ env.rawtextFiles) →
    (ConvertHTML env cik cwd).events = [] ∧
    (ConvertHTML env cik cwd).parsed = false ∧
    (ConvertHTML env cik cwd).cwd = cwd := by
  intro env cik cwd h
  by_cases hd : env.dirFound = true
  · simp only [ConvertHTML, hd, if_true,
      convertLoop_skip env (cwd ++ [cik]) (fileListOf env) env.rawtextFiles false h,
      List.dropLast_concat]
    exact ⟨trivial, trivial, trivial⟩
  · have hd' : env.dirFound = false := by
      simp only [Bool.not_eq_true] at hd; exact hd
    simp [ConvertHTML, hd']

/-- Claim C9 witness: a concrete fully-cleaned company directory with
one `.html` raw file and one `.txt` raw file (the `rawtext` entry and a
hidden file are excluded from the listing). -/
theorem claimC9_witness :
    (∀ f ∈ fileListOf envCleaned,
      pyReplaceS (".html") (".txt") f ∈ envCleaned.rawtextFiles) ∧
    (ConvertHTML envCleaned ("7_T") [("root")]).events = [] ∧
    (ConvertHTML envCleaned ("7_T") [("root")]).parsed = false ∧
    (ConvertHTML envCleaned ("7_T") [("root")]).cwd = [("root")] :=
  ⟨by decide, claimC9 envCleaned ("7_T") [("root")] (by decide)⟩

theorem scrapeLoop_cwd (tp : String → Bool) (sfx : String)
    (fU : String → String → String) (dU : String → String → String → String)
    (env : ScrapeEnv) (cik directory lfn : String) :
    ∀ (ps : List (FilingRow × String)) (cwd : List String),
      cwd.dropLast ++ [directory] = cwd →
      (scrapeLoop tp sfx fU dU env cik directory lfn cwd ps).2 = cwd := by
  intro ps
  induction ps with
  | nil => intro cwd _; rfl
  | cons p rest ih =>
    intro cwd h
    obtain ⟨row, accNo⟩ := p
    simp only [scrapeLoop]
    rw [h]
    split
    · exact ih cwd h
    · split
      · exact ih cwd h
      · split
        · exact ih cwd h
        · split
          · exact ih cwd h
          · split
            · exact ih cwd h
            · exact ih cwd h

theorem scrapeCore_cwd (fp tp : String → Bool) (sfx : String)
    (bU : String → String) (fU : String → String → String)
    (dU : String → String → String → String) (env : ScrapeEnv)
    (cik ticker lfn : String) (cwd : List String)
    (h : (scrapeCore fp tp sfx bU fU dU env cik ticker lfn cwd).outcome =
      Outcome.ret) :
    (scrapeCore fp tp sfx bU fU dU env cik ticker lfn cwd).cwd = cwd := by
  by_cases hd : env.dirExists = true
  · rw [scrapeCore_eq_of_dirExists fp tp sfx bU fU dU env cik ticker lfn cwd hd]
  · have hd' : env.dirExists = false := by
      simp only [Bool.not_eq_true] at hd; exact hd
    by_cases hs : (env.net (bU cik)).status ≠ 200
    · rw [scrapeCore_eq_of_browseFail fp tp sfx bU fU dU env cik ticker lfn cwd
        hd' hs]
    · have hs' : (env.net (bU cik)).status = 200 := not_not.mp hs
      by_cases ht : (env.net (bU cik)).numTables < 3
      · rw [scrapeCore_eq_of_fewTables fp tp sfx bU fU dU env cik ticker lfn cwd
          hd' hs' ht]
      · cases hie : ((env.net (bU cik)).filingRows.filter
          (fun r => fp r.filings)).isEmpty with
        | true =>
          simp only [scrapeCore, hd', Bool.false_eq_true, if_false, hs', ne_eq,
            not_true_eq_false, ht, hie, if_true, List.dropLast_concat]
        | false =>
          cases hex : extractAll ((((env.net (bU cik)).filingRows.filter
            (fun r => fp r.filings))).map (fun r => r.description)) with
          | none =>
            simp only [scrapeCore, hd', Bool.false_eq_true, if_false, hs', ne_eq,
              not_true_eq_false, ht, hie, hex] at h
            exact absurd h (by decide)
          | some accs =>
            simp only [scrapeCore, hd', Bool.false_eq_true, if_false, hs', ne_eq,
              not_true_eq_false, ht, hie, hex]
            rw [scrapeLoop_cwd tp sfx fU dU env cik (cik ++ ("_") ++ ticker) lfn _
              (cwd ++ [cik ++ ("_") ++ ticker]) (by rw [List.dropLast_concat]),
              List.dropLast_concat]

/-- Claim C10: on every non-exceptional return the crawl functions leave
the process working directory exactly as they found it (every
`os.chdir` into the company directory, including the temporary
`chdir('..')` around each in-loop log write, is matched), and
`ConvertHTML` does so on all its returns. -/
theorem claimC10 : ∀ (bU : String → String) (fU : String → String → String)
    (dU : String → String → String → String) (env : ScrapeEnv)
    (cik ticker lfn : String) (cwd : List String) (cenv : ConvertEnv)
    (ccik : String) (ccwd : List String),
    ((Scrape10K bU fU dU env cik ticker lfn cwd).outcome = Outcome.ret →
      (Scrape10K bU fU dU env cik ticker lfn cwd).cwd = cwd) ∧
    ((Scrape10Q bU fU dU env cik ticker lfn cwd).outcome = Outcome.ret →
      (Scrape10Q bU fU dU env cik ticker lfn cwd).cwd = cwd) ∧
    ((ScrapeS1 bU fU dU env cik ticker lfn cwd).outcome = Outcome.ret →
      (ScrapeS1 bU fU dU env cik ticker lfn cwd).cwd = cwd) ∧
    (ConvertHTML cenv ccik ccwd).cwd = ccwd := by
  intro bU fU dU env cik ticker lfn cwd cenv ccik ccwd
  refine ⟨fun h => ?_, fun h => ?_, fun h => ?_, ?_⟩
  · exact scrapeCore_cwd pred10K pred10K ("") bU fU dU env cik ticker lfn cwd h
  · exact scrapeCore_cwd pred10Q pred10Q ("") bU fU dU env cik ticker lfn cwd h
  · exact scrapeCore_cwd predS1 predS1 ("_s1") bU fU dU env cik ticker lfn cwd h
  · by_cases hd : cenv.dirFound = true
    · simp [ConvertHTML, hd, List.dropLast_concat]
    · have hd' : cenv.dirFound = false := by
        simp only [Bool.not_eq_true] at hd; exact hd
      simp [ConvertHTML, hd']

/-- Claim C10 witness: a complete S-1 crawl (directory created, index
parsed, one filing downloaded) and a sanitize run both end back in the
starting directory. -/
theorem claimC10_witness :
    (ScrapeS1 bU0 fU0 dU0 envS1Doc ("7") ("T") ("log") [("base")]).cwd =
      [("base")] ∧
    (ConvertHTML envCleaned ("7_T") [("base")]).cwd = [("base")] :=
  ⟨(claimC10 bU0 fU0 dU0 envS1Doc ("7") ("T") ("log") [("base")] envCleaned
      ("7_T") [("base")]).2.2.1 (by decide),
   (claimC10 bU0 fU0 dU0 envS1Doc ("7") ("T") ("log") [("base")] envCleaned
      ("7_T") [("base")]).2.2.2⟩

/-- Claim C7: for a retained row whose normalized description decomposes
as `pre ++ "Acc-no: " ++ accno ++ rest` — the marker occurrence being the
first one, `accno` a nonempty well-formed token of digits and dashes,
and `rest` empty or starting with a space (so that the token is
whitespace-delimited) — the extracted accession number is exactly
`accno`, the first token after the marker of the description with
non-breaking spaces replaced by regular spaces. -/
theorem claimC7 (d : String) (pre accno rest : List Char)
    (hnorm : normalizeNbsp d.data = pre ++ accMarker ++ (accno ++ rest))
    (hacc : ∀ c ∈ accno, c.isDigit = true ∨ c = '-')
    (hrest : rest = [] ∨ ∃ r, rest = ' ' :: r)
    (hfirst : ∀ i < pre.length,
      ¬ (accMarker.isPrefixOf ((pre ++ accMarker ++ (accno ++ rest)).drop i) = true)) :
    extractAccNo d = some accno.asString := by
  have hM : accMarker = 'A' :: (("cc-no: ").data) := rfl
  have hA : ∀ x ∈ accno, x ≠ 'A' := by
    intro x hx he
    rcases hacc x hx with hdig | hdash
    · rw [he] at hdig
      exact absurd hdig (by decide)
    · rw [he] at hdash
      exact absurd hdash (by decide)
  have hsp : ∀ x ∈ accno, x ≠ ' ' := by
    intro x hx he
    rcases hacc x hx with hdig | hdash
    · rw [he] at hdig
      exact absurd hdig (by decide)
    · rw [he] at hdash
      exact absurd hdash (by decide)
  rw [hM] at hnorm hfirst
  simp only [extractAccNo, extractAccNoL, hM, hnorm]
  rw [pySplit_sep_split 'A' (("cc-no: ").data) pre (accno ++ rest) hfirst]
  rcases hrest with hr | ⟨r, hr⟩
  · subst hr
    rw [List.append_nil] at *
    have hno : ∀ i < accno.length,
        ¬ (('A' :: (("cc-no: ").data)).isPrefixOf (accno.drop i) = true) := by
      have := no_occ_of_head_ne 'A' (("cc-no: ").data) accno [] hA
      simpa using this
    rw [pySplit_no_occ 'A' (("cc-no: ").data) accno hno]
    have hno2 : ∀ i < accno.length,
        ¬ ((' ' :: ([] : List Char)).isPrefixOf (accno.drop i) = true) := by
      have := no_occ_of_head_ne ' ' [] accno [] hsp
      simpa using this
    simp only [List.getElem?_cons_succ, List.getElem?_cons_zero,
      pySplit_no_occ ' ' [] accno hno2, List.headI]
    rfl
  · subst hr
    have hb : accno ++ (' ' :: r) = accno ++ [' '] ++ r := List.append_cons accno ' ' r
    rw [hb]
    have hAs : ∀ x ∈ accno ++ [' '], x ≠ 'A' := by
      intro x hx
      rcases List.mem_append.mp hx with h1 | h1
      · exact hA x h1
      · have : x = ' ' := by simpa using h1
        rw [this]
        decide
    obtain ⟨h1, t1, e1, e2⟩ := pySplit_prepend 'A' (("cc-no: ").data)
      (accno ++ [' ']) r (no_occ_of_head_ne 'A' (("cc-no: ").data) (accno ++ [' ']) r hAs)
    rw [e2]
    simp only [List.getElem?_cons_succ, List.getElem?_cons_zero]
    have hseg : accno ++ [' '] ++ h1 = accno ++ (' ' :: h1) :=
      (List.append_cons accno ' ' h1).symm
    rw [hseg]
    obtain ⟨h2, t2, e3, e4⟩ := pySplit_prepend ' ' [] accno (' ' :: h1)
      (no_occ_of_head_ne ' ' [] accno (' ' :: h1) hsp)
    have e5 : pySplit [' '] (' ' :: h1) = [] :: pySplitF ' ' [] h1.length h1 := by
      simp [pySplit, pySplitF, List.isPrefixOf]
    rw [e5] at e3
    injection e3 with hh2 ht2
    rw [e4, ← hh2]
    simp [List.headI]

/-- Claim C7 witness: a concrete description with a non-breaking space
before the marker and a well-formed accession number followed by
trailing text. -/
theorem claimC7_witness :
    extractAccNo ("10-K\xA0Acc-no: 0001-23-000123 (34 Act)") =
      some ("0001-23-000123") := by
  have h := claimC7 ("10-K\xA0Acc-no: 0001-23-000123 (34 Act)")
    (("10-K ").data) (("0001-23-000123").data) ((" (34 Act)").data)
    (by decide) (by decide)
    (Or.inr ⟨(("(34 Act)").data), by decide⟩) (by decide)
  exact h

theorem extractAll_zip : ∀ (l : List FilingRow) (accs : List String),
    extractAll (l.map (fun r => r.description)) = some accs →
    ∀ row acc, (row, acc) ∈ l.zip accs →
      extractAccNo row.description = some acc := by
  intro l
  induction l with
  | nil =>
    intro accs _ row acc hmem
    simp at hmem
  | cons r t ih =>
    intro accs hall row acc hmem
    cases hr : extractAccNo r.description with
    | none =>
      simp only [List.map_cons, extractAll, hr] at hall
      exact absurd hall (by simp)
    | some a =>
      cases ht : extractAll (t.map (fun x => x.description)) with
      | none =>
        simp only [List.map_cons, extractAll, hr, ht] at hall
        exact absurd hall (by simp)
      | some rest =>
        simp only [List.map_cons, extractAll, hr, ht, Option.some.injEq] at hall
        subst hall
        simp only [List.zip_cons_cons, List.mem_cons, Prod.mk.injEq] at hmem
        rcases hmem with ⟨he1, he2⟩ | hm
        · subst he1
          subst he2
          exact hr
        · exact ih rest ht row acc hm

theorem scrapeLoop_append_spec (tp : String → Bool) (sfx : String)
    (fU : String → String → String) (dU : String → String → String → String)
    (env : ScrapeEnv) (cik directory lfn : String) :
    ∀ (ps : List (FilingRow × String)) (cwd : List String),
      cwd.dropLast ++ [directory] = cwd →
      ∀ dir n content,
      Ev.append dir n content ∈
        (scrapeLoop tp sfx fU dU env cik directory lfn cwd ps).1 →
      ∃ row acc, (row, acc) ∈ ps ∧
        ∃ d0 dn,
          ((env.net (fU cik acc)).docRows.filter (fun x => tp x.type)).head? =
            some d0 ∧
          d0.document = some dn ∧
          (env.net (dU cik (stripDashes acc) dn)).status = 200 ∧
          dir = cwd ∧
          n = cik ++ ("_") ++ row.filingDate ++ sfx ++
            (if strContains dn (".txt") = true then (".txt") else (".html")) ∧
          content = (env.net (dU cik (stripDashes acc) dn)).content := by
  intro ps
  induction ps with
  | nil =>
    intro cwd _ dir n content hmem
    simp [scrapeLoop] at hmem
  | cons p rest ih =>
    intro cwd h dir n content hmem
    obtain ⟨row, accNo⟩ := p
    by_cases h1 : (env.net (fU cik accNo)).status ≠ 200
    · simp only [scrapeLoop, if_pos h1, List.mem_cons] at hmem
      rw [h] at hmem
      rcases hmem with he | he | hmem
      · simp at he
      · simp at he
      · obtain ⟨r2, a2, hm2, rest2⟩ := ih cwd h dir n content hmem
        exact ⟨r2, a2, List.mem_cons_of_mem _ hm2, rest2⟩
    · by_cases h2 : (env.net (fU cik accNo)).numTables = 0
      · simp only [scrapeLoop, if_neg h1, if_pos h2, List.mem_cons] at hmem
        rcases hmem with he | hmem
        · simp at he
        · obtain ⟨r2, a2, hm2, rest2⟩ := ih cwd h dir n content hmem
          exact ⟨r2, a2, List.mem_cons_of_mem _ hm2, rest2⟩
      · cases hh : ((env.net (fU cik accNo)).docRows.filter
          (fun x => tp x.type)).head? with
        | none =>
          simp only [scrapeLoop, if_neg h1, if_neg h2, hh, List.mem_cons] at hmem
          rcases hmem with he | hmem
          · simp at he
          · obtain ⟨r2, a2, hm2, rest2⟩ := ih cwd h dir n content hmem
            exact ⟨r2, a2, List.mem_cons_of_mem _ hm2, rest2⟩
        | some d0 =>
          cases hdoc : d0.document with
          | none =>
            simp only [scrapeLoop, if_neg h1, if_neg h2, hh, hdoc,
              List.mem_cons] at hmem
            rw [h] at hmem
            rcases hmem with he | he | hmem
            · simp at he
            · simp at he
            · obtain ⟨r2, a2, hm2, rest2⟩ := ih cwd h dir n content hmem
              exact ⟨r2, a2, List.mem_cons_of_mem _ hm2, rest2⟩
          | some dn =>
            by_cases h3 : (env.net (dU cik (stripDashes accNo) dn)).status ≠ 200
            · simp only [scrapeLoop, if_neg h1, if_neg h2, hh, hdoc, if_pos h3,
                List.mem_cons] at hmem
              rw [h] at hmem
              rcases hmem with he | he | he | hmem
              · simp at he
              · simp at he
              · simp at he
              · obtain ⟨r2, a2, hm2, rest2⟩ := ih cwd h dir n content hmem
                exact ⟨r2, a2, List.mem_cons_of_mem _ hm2, rest2⟩
            · simp only [scrapeLoop, if_neg h1, if_neg h2, hh, hdoc, if_neg h3,
                List.mem_cons] at hmem
              rcases hmem with he | he | he | hmem
              · simp at he
              · simp at he
              · simp only [Ev.append.injEq] at he
                obtain ⟨hdir, hname, hcont⟩ := he
                exact ⟨row, accNo, List.mem_cons_self _ _, d0, dn, hh, hdoc,
                  not_not.mp h3, hdir, hname, hcont⟩
              · obtain ⟨r2, a2, hm2, rest2⟩ := ih cwd h dir n content hmem
                exact ⟨r2, a2, List.mem_cons_of_mem _ hm2, rest2⟩

theorem scrapeCore_append_spec (fp tp : String → Bool) (sfx : String)
    (bU : String → String) (fU : String → String → String)
    (dU : String → String → String → String) (env : ScrapeEnv)
    (cik ticker lfn : String) (cwd : List String) :
    ∀ dir n content,
      Ev.append dir n content ∈
        (scrapeCore fp tp sfx bU fU dU env cik ticker lfn cwd).events →
      ∃ row acc,
        row ∈ (env.net (bU cik)).filingRows.filter (fun r => fp r.filings) ∧
        extractAccNo row.description = some acc ∧
        ∃ d0 dn,
          ((env.net (fU cik acc)).docRows.filter (fun x => tp x.type)).head? =
            some d0 ∧
          d0.document = some dn ∧
          (env.net (dU cik (stripDashes acc) dn)).status = 200 ∧
          dir = cwd ++ [cik ++ ("_") ++ ticker] ∧
          n = cik ++ ("_") ++ row.filingDate ++ sfx ++
            (if strContains dn (".txt") = true then (".txt") else (".html")) ∧
          content = (env.net (dU cik (stripDashes acc) dn)).content := by
  intro dir n content hmem
  by_cases hd : env.dirExists = true
  · rw [scrapeCore_eq_of_dirExists fp tp sfx bU fU dU env cik ticker lfn cwd hd] at hmem
    simp at hmem
  · have hd' : env.dirExists = false := by
      simp only [Bool.not_eq_true] at hd; exact hd
    by_cases hs : (env.net (bU cik)).status ≠ 200
    · rw [scrapeCore_eq_of_browseFail fp tp sfx bU fU dU env cik ticker lfn cwd
        hd' hs] at hmem
      simp at hmem
    · have hs' : (env.net (bU cik)).status = 200 := not_not.mp hs
      by_cases ht : (env.net (bU cik)).numTables < 3
      · rw [scrapeCore_eq_of_fewTables fp tp sfx bU fU dU env cik ticker lfn cwd
          hd' hs' ht] at hmem
        simp at hmem
      · cases hie : ((env.net (bU cik)).filingRows.filter
          (fun r => fp r.filings)).isEmpty with
        | true =>
          simp only [scrapeCore, hd', Bool.false_eq_true, if_false, hs', ne_eq,
            not_true_eq_false, ht, hie, if_true] at hmem
          simp at hmem
        | false =>
          cases hex : extractAll (((env.net (bU cik)).filingRows.filter
            (fun r => fp r.filings)).map (fun r => r.description)) with
          | none =>
            simp only [scrapeCore, hd', Bool.false_eq_true, if_false, hs', ne_eq,
              not_true_eq_false, ht, hie, hex] at hmem
            simp at hmem
          | some accs =>
            simp only [scrapeCore, hd', Bool.false_eq_true, if_false, hs', ne_eq,
              not_true_eq_false, ht, hie, hex, List.mem_cons] at hmem
            rcases hmem with he | hmem
            · simp at he
            · obtain ⟨row, acc, hzip, hrest⟩ := scrapeLoop_append_spec tp sfx fU dU
                env cik (cik ++ ("_") ++ ticker) lfn _
                (cwd ++ [cik ++ ("_") ++ ticker]) (by rw [List.dropLast_concat])
                dir n content hmem
              exact ⟨row, acc, (List.of_mem_zip hzip).1,
                extractAll_zip _ accs hex row acc hzip, hrest⟩

/-- Claim C5 (amended): every persisted document of a crawl is appended
(the file is opened in append mode, never truncated) inside the company
directory, and its name is fully determined by its own download: the
write traces back to a retained filings row and the accession number
extracted from that row, the document name is the one selected (first
matching `Type` row) from the successfully fetched documents page of
that accession number, the filename is `{identifier}_{filing_date}` of
that row plus `.txt` when that document name contains `.txt` and
`.html` otherwise, and the appended bytes are the fetched body — except
that `ScrapeS1` deviates from the common scheme by inserting an extra
`_s1` between the filing date and the extension, so the naming is not
uniform across the three form types. -/
theorem claimC5_amended : ∀ (bU : String → String)
    (fU : String → String → String) (dU : String → String → String → String)
    (env : ScrapeEnv) (cik ticker lfn : String) (cwd : List String),
    (∀ dir n content,
      Ev.append dir n content ∈
        (Scrape10K bU fU dU env cik ticker lfn cwd).events →
      ∃ row acc,
        row ∈ (env.net (bU cik)).filingRows.filter (fun r => pred10K r.filings) ∧
        extractAccNo row.description = some acc ∧
        ∃ d0 dn,
          ((env.net (fU cik acc)).docRows.filter
            (fun x => pred10K x.type)).head? = some d0 ∧
          d0.document = some dn ∧
          (env.net (dU cik (stripDashes acc) dn)).status = 200 ∧
          dir = cwd ++ [cik ++ ("_") ++ ticker] ∧
          n = cik ++ ("_") ++ row.filingDate ++
            (if strContains dn (".txt") = true then (".txt") else (".html")) ∧
          content = (env.net (dU cik (stripDashes acc) dn)).content) ∧
    (∀ dir n content,
      Ev.append dir n content ∈
        (Scrape10Q bU fU dU env cik ticker lfn cwd).events →
      ∃ row acc,
        row ∈ (env.net (bU cik)).filingRows.filter (fun r => pred10Q r.filings) ∧
        extractAccNo row.description = some acc ∧
        ∃ d0 dn,
          ((env.net (fU cik acc)).docRows.filter
            (fun x => pred10Q x.type)).head? = some d0 ∧
          d0.document = some dn ∧
          (env.net (dU cik (stripDashes acc) dn)).status = 200 ∧
          dir = cwd ++ [cik ++ ("_") ++ ticker] ∧
          n = cik ++ ("_") ++ row.filingDate ++
            (if strContains dn (".txt") = true then (".txt") else (".html")) ∧
          content = (env.net (dU cik (stripDashes acc) dn)).content) ∧
    (∀ dir n content,
      Ev.append dir n content ∈
        (ScrapeS1 bU fU dU env cik ticker lfn cwd).events →
      ∃ row acc,
        row ∈ (env.net (bU cik)).filingRows.filter (fun r => predS1 r.filings) ∧
        extractAccNo row.description = some acc ∧
        ∃ d0 dn,
          ((env.net (fU cik acc)).docRows.filter
            (fun x => predS1 x.type)).head? = some d0 ∧
          d0.document = some dn ∧
          (env.net (dU cik (stripDashes acc) dn)).status = 200 ∧
          dir = cwd ++ [cik ++ ("_") ++ ticker] ∧
          n = cik ++ ("_") ++ row.filingDate ++ ("_s1") ++
            (if strContains dn (".txt") = true then (".txt") else (".html")) ∧
          content = (env.net (dU cik (stripDashes acc) dn)).content) := by
  intro bU fU dU env cik ticker lfn cwd
  refine ⟨fun dir n content hmem => ?_, fun dir n content hmem => ?_,
    fun dir n content hmem => ?_⟩
  · obtain ⟨row, acc, hrow, hacc, d0, dn, hd0, hdn, hst, hdir, hname, hcont⟩ :=
      scrapeCore_append_spec pred10K pred10K ("") bU fU dU env cik ticker lfn cwd
        dir n content hmem
    exact ⟨row, acc, hrow, hacc, d0, dn, hd0, hdn, hst, hdir,
      by simpa using hname, hcont⟩
  · obtain ⟨row, acc, hrow, hacc, d0, dn, hd0, hdn, hst, hdir, hname, hcont⟩ :=
      scrapeCore_append_spec pred10Q pred10Q ("") bU fU dU env cik ticker lfn cwd
        dir n content hmem
    exact ⟨row, acc, hrow, hacc, d0, dn, hd0, hdn, hst, hdir,
      by simpa using hname, hcont⟩
  · exact scrapeCore_append_spec predS1 predS1 ("_s1") bU fU dU env cik ticker lfn
      cwd dir n content hmem

/-- Claim C5 witness: the amended theorem applied to the concrete
successful S-1 crawl, whose single append event is traced back to the
retained row (filing date 2020-01-01), its accession number
0001-20-000001, and the selected document `doc.htm`. -/
theorem claimC5_witness :
    (Ev.append [("root"), ("7_T")] ("7_2020-01-01_s1.html") ("BODY") ∈
      (ScrapeS1 bU0 fU0 dU0 envS1Doc ("7") ("T") ("log") [("root")]).events) ∧
    (∃ row acc,
      row ∈ (envS1Doc.net (bU0 ("7"))).filingRows.filter
        (fun r => predS1 r.filings) ∧
      extractAccNo row.description = some acc ∧
      ∃ d0 dn,
        ((envS1Doc.net (fU0 ("7") acc)).docRows.filter
          (fun x => predS1 x.type)).head? = some d0 ∧
        d0.document = some dn ∧
        (envS1Doc.net (dU0 ("7") (stripDashes acc) dn)).status = 200 ∧
        [("root"), ("7_T")] = [("root")] ++ [("7") ++ ("_") ++ ("T")] ∧
        ("7_2020-01-01_s1.html") = ("7") ++ ("_") ++ row.filingDate ++ ("_s1") ++
          (if strContains dn (".txt") = true then (".txt") else (".html")) ∧
        ("BODY") = (envS1Doc.net (dU0 ("7") (stripDashes acc) dn)).content) :=
  ⟨by decide,
   (claimC5_amended bU0 fU0 dU0 envS1Doc ("7") ("T") ("log") [("root")]).2.2
     [("root"), ("7_T")] ("7_2020-01-01_s1.html") ("BODY") (by decide)⟩
